import Mathlib

/-
Verification of the earthquake parametric-insurance core
(`src/earthquakes/tools.py`).

The Python module is shallowly embedded here:
* payout tiers, catalog rows and the yearly payout dict become Lean
  structures / association lists over `ℚ` (Python floats enter only through
  comparisons, `max`, `+` and `/`, which agree with exact rational
  arithmetic on the inputs considered);
* years are `ℤ` (Python ints);
* `datetime.datetime.strptime(s, "%Y-%m-%dT%H:%M:%S.%f%z")` is embedded as
  an explicit parser returning `Option ℤ` (the year), following CPython's
  `_strptime` field regexes and the range checks of the `datetime`
  constructor;
* Python exceptions (a `ValueError` from `strptime`, a `ZeroDivisionError`
  from `/`) are embedded as `Except` / `Option` failures.
-/

/-- An earthquake event as consumed by `compute_payout_item`: the dict built
in `compute_payouts` with keys `EARTHQUAKE_EVENT_DISTANCE` (km) and
`EARTHQUAKE_EVENT_MAGNITUDE` (the catalog's `mag` column). -/
structure EarthquakeEvent where
  distance : ℚ
  magnitude : ℚ
  deriving DecidableEq

/-- One row of the payout-structure DataFrame: columns `Radius` (km,
inclusive maximum distance), `Magnitude` (inclusive minimum magnitude) and
`Payout` (percent), named like the source constants `PAYOUT_RADIUS`,
`PAYOUT_MAGNITUDE`, `PAYOUT_PERCENTAGE`. -/
structure PayoutTier where
  Radius : ℚ
  Magnitude : ℚ
  Payout : ℚ
  deriving DecidableEq

/-- One row of the earthquake catalog DataFrame: columns `time` (string),
`mag` and `distance`, as read by `compute_payouts`. -/
structure CatalogRow where
  time : String
  mag : ℚ
  distance : ℚ
  deriving DecidableEq

/-- Embedding of `compute_payout_item` (tools.py lines 111-143): starting
from `res = 0`, every tier whose radius and magnitude criteria both hold
raises `res` to `max res payout`. -/
def compute_payout_item (earthquake_event : EarthquakeEvent)
    (payout_structure : List PayoutTier) : ℚ :=
  payout_structure.foldl
    (fun res payout_item =>
      if earthquake_event.distance ≤ payout_item.Radius ∧
          earthquake_event.magnitude ≥ payout_item.Magnitude then
        max res payout_item.Payout
      else res)
    0

/-- Spec-side predicate: a tier matches iff `event.distance <= tier.radius`
and `event.magnitude >= tier.magnitude` (spec section 4.2). -/
def tierMatches (e : EarthquakeEvent) (t : PayoutTier) : Bool :=
  decide (e.distance ≤ t.Radius ∧ e.magnitude ≥ t.Magnitude)

/-- Spec-side list of the payouts of the matching tiers, in structure order. -/
def matchingPayouts (e : EarthquakeEvent) (s : List PayoutTier) : List ℚ :=
  (s.filter (tierMatches e)).map (fun t => t.Payout)

/-- Modelled from the spec's words (section 4.2): "the maximum `tier.payout`
among all matching tiers, or 0 if none match or the structure is empty".
Used to compare the implementation against the spec. -/
def match_payout_spec (e : EarthquakeEvent) (s : List PayoutTier) : ℚ :=
  match (matchingPayouts e s).max? with
  | some m => m
  | none => 0

/-- The fold of `compute_payout_item`, with a general accumulator, is the
fold of `max` over the matching payouts. -/
lemma compute_payout_item_foldl (e : EarthquakeEvent) (s : List PayoutTier) :
    ∀ a : ℚ,
      s.foldl
        (fun res payout_item =>
          if e.distance ≤ payout_item.Radius ∧
              e.magnitude ≥ payout_item.Magnitude then
            max res payout_item.Payout
          else res)
        a = (matchingPayouts e s).foldl max a := by
  induction s with
  | nil => intro a; rfl
  | cons t rest ih =>
    intro a
    by_cases h : e.distance ≤ t.Radius ∧ e.magnitude ≥ t.Magnitude
    · simp only [List.foldl_cons, if_pos h, matchingPayouts, List.filter_cons,
        tierMatches, decide_eq_true_eq, if_pos h, List.map_cons]
      exact ih (max a t.Payout)
    · simp only [List.foldl_cons, if_neg h, matchingPayouts, List.filter_cons,
        tierMatches, decide_eq_true_eq, if_neg h]
      exact ih a

/-- `compute_payout_item` is the `max`-fold of the matching payouts from 0. -/
lemma compute_payout_item_eq (e : EarthquakeEvent) (s : List PayoutTier) :
    compute_payout_item e s = (matchingPayouts e s).foldl max 0 :=
  compute_payout_item_foldl e s 0

/-- Folding `max` commutes with an outer `max`. -/
lemma foldl_max_max (l : List ℚ) : ∀ a b : ℚ,
    l.foldl max (max a b) = max a (l.foldl max b) := by
  induction l with
  | nil => intro a b; rfl
  | cons c t ih =>
    intro a b
    simp only [List.foldl_cons, max_assoc]
    exact ih a (max b c)

/-- A `max`-fold from an initial value is at least that value. -/
lemma init_le_foldl_max (l : List ℚ) : ∀ a : ℚ, a ≤ l.foldl max a := by
  induction l with
  | nil => intro a; exact le_rfl
  | cons c t ih =>
    intro a
    exact le_trans (le_max_left a c) (ih (max a c))

/-- A `max`-fold yields its initial value or a list element. -/
lemma foldl_max_mem (l : List ℚ) : ∀ a : ℚ,
    l.foldl max a = a ∨ l.foldl max a ∈ l := by
  induction l with
  | nil => intro a; exact Or.inl rfl
  | cons c t ih =>
    intro a
    rcases ih (max a c) with h | h
    · rcases max_choice a c with hm | hm
      · rw [List.foldl_cons, h, hm]; exact Or.inl rfl
      · rw [List.foldl_cons, h, hm]; exact Or.inr (List.mem_cons_self c t)
    · exact Or.inr (List.mem_cons_of_mem c h)

/-- `compute_payout_item` never returns a negative payout. -/
lemma compute_payout_item_nonneg (e : EarthquakeEvent) (s : List PayoutTier) :
    0 ≤ compute_payout_item e s := by
  rw [compute_payout_item_eq]
  exact init_le_foldl_max (matchingPayouts e s) 0

/-- The `max`-fold from 0 equals `max 0` of the spec's maximum. -/
lemma foldl_max_zero_eq (l : List ℚ) :
    l.foldl max 0 = max 0 (match l.max? with | some m => m | none => 0) := by
  cases l with
  | nil => simp [List.max?]
  | cons c t =>
    simp only [List.foldl_cons, List.max?]
    exact foldl_max_max t 0 c

/-- C2 counterexample: a single matching tier with a negative payout. The
source folds `max` from `res = 0`, so it returns 0, while the maximum
matching tier payout demanded by the claim is -5. -/
theorem compute_payout_item_negative_payout_counterexample :
    compute_payout_item { distance := 50, magnitude := 6 }
        [{ Radius := 100, Magnitude := 0, Payout := -5 }] = 0 ∧
    match_payout_spec { distance := 50, magnitude := 6 }
        [{ Radius := 100, Magnitude := 0, Payout := -5 }] = -5 ∧
    compute_payout_item { distance := 50, magnitude := 6 }
        [{ Radius := 100, Magnitude := 0, Payout := -5 }] ≠
      match_payout_spec { distance := 50, magnitude := 6 }
        [{ Radius := 100, Magnitude := 0, Payout := -5 }] := by
  refine ⟨by decide, by decide, by decide⟩

/-- C2 (amended): `compute_payout_item` returns the maximum of 0 and the
payouts of exactly the tiers with `distance <= Radius` and
`magnitude >= Magnitude` — equal to the maximum matching payout whenever
that maximum is nonnegative, and 0 when no tier matches or the structure is
empty; in particular the event (distance 50, magnitude 6.5) against the
tiers (100, 6.0, 10) and (50, 7.0, 50) yields 10. -/
theorem compute_payout_item_max_zero_matching :
    (∀ (e : EarthquakeEvent) (s : List PayoutTier),
        compute_payout_item e s = max 0 (match_payout_spec e s)) ∧
    compute_payout_item { distance := 50, magnitude := 6.5 }
        [{ Radius := 100, Magnitude := 6, Payout := 10 },
         { Radius := 50, Magnitude := 7, Payout := 50 }] = 10 := by
  constructor
  · intro e s
    rw [compute_payout_item_eq, match_payout_spec, foldl_max_zero_eq]
  · norm_num [compute_payout_item, List.foldl]

/-- C7: for every event and structure, `compute_payout_item` yields either
0 or one of the structure's `Payout` values, never a derived value. -/
theorem compute_payout_item_in_payouts_or_zero (e : EarthquakeEvent)
    (s : List PayoutTier) :
    compute_payout_item e s = 0 ∨
      compute_payout_item e s ∈ s.map (fun t => t.Payout) := by
  rw [compute_payout_item_eq]
  rcases foldl_max_mem (matchingPayouts e s) 0 with h | h
  · exact Or.inl h
  · right
    rcases List.mem_map.mp h with ⟨t, ht, hte⟩
    exact List.mem_map.mpr ⟨t, (List.mem_filter.mp ht).1, hte⟩

/-- Embedding of `compute_burning_cost` (tools.py lines 145-169): sum the
payouts whose year lies in `[start_year, end_year]`, then divide by
`end_year - start_year + 1`.  Python's `/` raises `ZeroDivisionError` when
the divisor is 0; that failure is embedded as `none`.  The source performs
no other validation of the window. -/
def compute_burning_cost (payouts : List (ℤ × ℚ)) (start_year end_year : ℤ) :
    Option ℚ :=
  let payout_sum : ℚ :=
    payouts.foldl
      (fun acc yp =>
        if start_year ≤ yp.1 ∧ yp.1 ≤ end_year then acc + yp.2 else acc)
      0
  if end_year - start_year + 1 = 0 then none
  else some (payout_sum / ((end_year - start_year + 1 : ℤ) : ℚ))

/-- Spec-side sum: the payouts of the mapping entries whose year lies in the
closed interval `[start_year, end_year]` (absent years contribute 0). -/
def burningSpecSum (payouts : List (ℤ × ℚ)) (start_year end_year : ℤ) : ℚ :=
  ((payouts.filter
      (fun yp => decide (start_year ≤ yp.1 ∧ yp.1 ≤ end_year))).map
    (fun yp => yp.2)).sum

/-- The in-range fold of `compute_burning_cost` computes `burningSpecSum`. -/
lemma burning_foldl_eq (start_year end_year : ℤ) (payouts : List (ℤ × ℚ)) :
    ∀ a : ℚ,
      payouts.foldl
        (fun acc yp =>
          if start_year ≤ yp.1 ∧ yp.1 ≤ end_year then acc + yp.2 else acc)
        a = a + burningSpecSum payouts start_year end_year := by
  induction payouts with
  | nil => intro a; simp [burningSpecSum]
  | cons p t ih =>
    intro a
    by_cases h : start_year ≤ p.1 ∧ p.1 ≤ end_year
    · simp only [List.foldl_cons, if_pos h, burningSpecSum, List.filter_cons,
        decide_eq_true_eq, if_pos h, List.map_cons, List.sum_cons]
      rw [ih (a + p.2)]
      simp only [burningSpecSum]
      ring
    · simp only [List.foldl_cons, if_neg h, burningSpecSum, List.filter_cons,
        decide_eq_true_eq, if_neg h]
      exact ih a

/-- C3: for every yearly-payouts mapping and every window with
`end_year >= start_year`, `compute_burning_cost` returns the sum of the
in-range payouts divided by the window length `end_year - start_year + 1`. -/
theorem compute_burning_cost_window_average (payouts : List (ℤ × ℚ))
    (start_year end_year : ℤ) (h : start_year ≤ end_year) :
    compute_burning_cost payouts start_year end_year =
      some (burningSpecSum payouts start_year end_year /
        ((end_year - start_year + 1 : ℤ) : ℚ)) := by
  have hne : ¬(end_year - start_year + 1 = 0) := by omega
  simp only [compute_burning_cost, if_neg hne, burning_foldl_eq, zero_add]

/-- C3 witness: the yearly map (2020 ↦ 20) over the window 2018..2021 gives
the burning cost 20 / 4 = 5. -/
theorem compute_burning_cost_window_average_witness :
    (2018 : ℤ) ≤ 2021 ∧
    compute_burning_cost [((2020 : ℤ), (20 : ℚ))] 2018 2021 = some 5 :=
  ⟨by decide,
    (compute_burning_cost_window_average [((2020 : ℤ), (20 : ℚ))] 2018 2021
      (by decide)).trans (by norm_num [burningSpecSum])⟩

/-- C1: at the spec's invalid-range scenario `(map, 2021, 2018)` the code
does not report any invalid-range condition: it returns the ordinary
numeric value `0 / (-2) = 0` (Python: `-0.0`), indistinguishable from the
legitimate zero burning cost of a valid window with no payout years. -/
theorem compute_burning_cost_invalid_range_plain_zero :
    compute_burning_cost [((2020 : ℤ), (20 : ℚ))] 2021 2018 = some 0 ∧
    compute_burning_cost [((2020 : ℤ), (20 : ℚ))] 2021 2024 = some 0 := by
  refine ⟨by norm_num [compute_burning_cost], by norm_num [compute_burning_cost]⟩

/-- C10: `compute_burning_cost` performs no window validation: with
`end_year = start_year - 1` the divisor is 0 and Python's division raises
`ZeroDivisionError` (embedded as `none`); with `end_year < start_year - 1`
it returns the ordinary quotient of the in-range sum by the negative window
length. -/
theorem compute_burning_cost_no_validation (payouts : List (ℤ × ℚ))
    (start_year end_year : ℤ) :
    (end_year = start_year - 1 →
      compute_burning_cost payouts start_year end_year = none) ∧
    (end_year < start_year - 1 →
      end_year - start_year + 1 < 0 ∧
        compute_burning_cost payouts start_year end_year =
          some (burningSpecSum payouts start_year end_year /
            ((end_year - start_year + 1 : ℤ) : ℚ))) := by
  constructor
  · intro h
    have hz : end_year - start_year + 1 = 0 := by omega
    simp only [compute_burning_cost, if_pos hz]
  · intro h
    have hlt : end_year - start_year + 1 < 0 := by omega
    have hne : ¬(end_year - start_year + 1 = 0) := by omega
    exact ⟨hlt, by simp only [compute_burning_cost, if_neg hne,
      burning_foldl_eq, zero_add]⟩

/-- C10 witness: with the yearly map (2020 ↦ 20), the window 2021..2020
divides by zero (`none`), and the window 2021..2018 returns the plain
quotient by the negative length -2. -/
theorem compute_burning_cost_no_validation_witness :
    compute_burning_cost [((2020 : ℤ), (20 : ℚ))] 2021 2020 = none ∧
    ((2018 : ℤ) - 2021 + 1 < 0 ∧
      compute_burning_cost [((2020 : ℤ), (20 : ℚ))] 2021 2018 =
        some (burningSpecSum [((2020 : ℤ), (20 : ℚ))] 2021 2018 /
          (((2018 : ℤ) - 2021 + 1 : ℤ) : ℚ))) :=
  ⟨(compute_burning_cost_no_validation [((2020 : ℤ), (20 : ℚ))] 2021 2020).1
      (by decide),
    (compute_burning_cost_no_validation [((2020 : ℤ), (20 : ℚ))] 2021 2018).2
      (by decide)⟩

/-- Contiguous runs of Unicode decimal digits (category `Nd`, Unicode 14.0,
as shipped with CPython 3.11): first and last code point of each run; the
digit value of a code point is its offset from the run start modulo 10 (one
run, the mathematical digits 1D7CE-1D7FF, is five consecutive 0-9 blocks).
Python's `\d` on `str` patterns matches every `Nd` character and `int()`
converts them by this digit value.  (`\d` also matches a few non-decimal
digit-property characters such as superscripts, but `int()` then raises
`ValueError`, so for the accept/raise behaviour modelled here they are
equivalent to non-digits: every path through `_strptime` that matches such
a character later feeds it to `int()`.) -/
def ndRuns : List (ℕ × ℕ) :=
  [(0x30, 0x39), (0x660, 0x669), (0x6F0, 0x6F9), (0x7C0, 0x7C9),
   (0x966, 0x96F), (0x9E6, 0x9EF), (0xA66, 0xA6F), (0xAE6, 0xAEF),
   (0xB66, 0xB6F), (0xBE6, 0xBEF), (0xC66, 0xC6F), (0xCE6, 0xCEF),
   (0xD66, 0xD6F), (0xDE6, 0xDEF), (0xE50, 0xE59), (0xED0, 0xED9),
   (0xF20, 0xF29), (0x1040, 0x1049), (0x1090, 0x1099), (0x17E0, 0x17E9),
   (0x1810, 0x1819), (0x1946, 0x194F), (0x19D0, 0x19D9), (0x1A80, 0x1A89),
   (0x1A90, 0x1A99), (0x1B50, 0x1B59), (0x1BB0, 0x1BB9), (0x1C40, 0x1C49),
   (0x1C50, 0x1C59), (0xA620, 0xA629), (0xA8D0, 0xA8D9), (0xA900, 0xA909),
   (0xA9D0, 0xA9D9), (0xA9F0, 0xA9F9), (0xAA50, 0xAA59), (0xABF0, 0xABF9),
   (0xFF10, 0xFF19), (0x104A0, 0x104A9), (0x10D30, 0x10D39),
   (0x11066, 0x1106F), (0x110F0, 0x110F9), (0x11136, 0x1113F),
   (0x111D0, 0x111D9), (0x112F0, 0x112F9), (0x11450, 0x11459),
   (0x114D0, 0x114D9), (0x11650, 0x11659), (0x116C0, 0x116C9),
   (0x11730, 0x11739), (0x118E0, 0x118E9), (0x11950, 0x11959),
   (0x11C50, 0x11C59), (0x11D50, 0x11D59), (0x11DA0, 0x11DA9),
   (0x16A60, 0x16A69), (0x16AC0, 0x16AC9), (0x16B50, 0x16B59),
   (0x1D7CE, 0x1D7FF), (0x1E140, 0x1E149), (0x1E2F0, 0x1E2F9),
   (0x1E950, 0x1E959), (0x1FBF0, 0x1FBF9)]

/-- Decimal value of a Unicode decimal digit, `none` for any other
character. -/
def ndVal? (c : Char) : Option ℕ :=
  match ndRuns.find? (fun r => decide (r.1 ≤ c.toNat ∧ c.toNat ≤ r.2)) with
  | some r => some ((c.toNat - r.1) % 10)
  | none => none

/-- Whether a character is a Unicode decimal digit (what `\d` accepts up to
the `int()` equivalence noted at `ndRuns`). -/
def isNd (c : Char) : Bool := (ndVal? c).isSome

/-- Digit value with default 0; used only where digitness was checked. -/
def ndV (c : Char) : ℕ := (ndVal? c).getD 0

/-- Whether a character lies in an ASCII character class such as `[0-5]`
(Python character classes are code-point ranges, so they match ASCII digits
only, unlike the bare `\d`). -/
def asciiIn (lo hi c : Char) : Bool :=
  decide (lo.toNat ≤ c.toNat ∧ c.toNat ≤ hi.toNat)

/-- Leading run of ASCII digits of a character list, and the rest (the `%f`
field is `[0-9]{1,6}`, ASCII only). -/
def takeDigits : List Char → List Char × List Char
  | [] => ([], [])
  | c :: cs =>
    if c.isDigit then
      let r := takeDigits cs
      (c :: r.1, r.2)
    else ([], c :: cs)

/-- Leading run of Unicode decimal digits, and the rest. -/
def takeNdDigits : List Char → List Char × List Char
  | [] => ([], [])
  | c :: cs =>
    if isNd c then
      let r := takeNdDigits cs
      (c :: r.1, r.2)
    else ([], c :: cs)

/-- Numeric value of a digit list, most significant digit first. -/
def ndDigitsVal (ds : List Char) : ℕ :=
  ds.foldl (fun a c => 10 * a + ndV c) 0

/-- Consume one expected character. -/
def expectChar (c : Char) : List Char → Option (List Char)
  | d :: rest => if d = c then some rest else none
  | [] => none

/-- Consume the literal `T` of the format; `strptime` compiles its regex
with `re.IGNORECASE`, so the lowercase `t` is accepted as well. -/
def expectT : List Char → Option (List Char)
  | d :: rest => if d = 'T' ∨ d = 't' then some rest else none
  | [] => none

/-- Field `%Y`, regex `\d\d\d\d`: exactly four decimal digits (a fifth
digit would make the following literal `-` fail to match). -/
def take4Nd : List Char → Option (ℕ × List Char)
  | c1 :: c2 :: c3 :: c4 :: rest =>
    if isNd c1 && isNd c2 && isNd c3 && isNd c4 then
      some (((ndV c1 * 10 + ndV c2) * 10 + ndV c3) * 10 + ndV c4, rest)
    else none
  | _ => none

/-- Hour field of `%z`, regex `\d\d`: exactly two decimal digits. -/
def take2Nd : List Char → Option (ℕ × List Char)
  | c1 :: c2 :: rest =>
    if isNd c1 && isNd c2 then some (10 * ndV c1 + ndV c2, rest) else none
  | _ => none

/-- Minute/second field of `%z`, regex `[0-5]\d`: an ASCII `0`-`5` then a
decimal digit. -/
def take05d : List Char → Option (ℕ × List Char)
  | c1 :: c2 :: rest =>
    if asciiIn '0' '5' c1 && isNd c2 then some (10 * ndV c1 + ndV c2, rest)
    else none
  | _ => none

/-- Generic one-or-two-character field: the CPython field regexes here are
alternations of two-character patterns and one-character patterns, and in
this format every such field is followed by a literal (`-`, `T`/`t`, `:`,
`.`) that no pattern character can match, so the regex engine is forced to
consume two characters exactly when the character after the first is not
that literal (with backtracking exhausted otherwise).  `ok2`/`ok1` return
the field's numeric value (`int()` of the matched text) when the characters
fit some alternative. -/
def parseField2or1 (ok2 : Char → Char → Option ℕ) (ok1 : Char → Option ℕ)
    (isLit : Char → Bool) : List Char → Option (ℕ × List Char)
  | c1 :: c2 :: rest =>
    if isLit c2 then
      match ok1 c1 with
      | some v => some (v, c2 :: rest)
      | none => none
    else
      match ok2 c1 c2 with
      | some v => some (v, rest)
      | none => none
  | [c1] =>
    match ok1 c1 with
    | some v => some (v, [])
    | none => none
  | [] => none

/-- Field `%m`, two-character alternatives of `1[0-2]|0[1-9]|[1-9]` (all
classes ASCII). -/
def monthOk2 (c1 c2 : Char) : Option ℕ :=
  if c1 = '1' && asciiIn '0' '2' c2 then some (10 + ndV c2)
  else if c1 = '0' && asciiIn '1' '9' c2 then some (ndV c2)
  else none

/-- One-character alternative `[1-9]` of `%m` and `%d`. -/
def monthOk1 (c : Char) : Option ℕ :=
  if asciiIn '1' '9' c then some (ndV c) else none

/-- Field `%d`, two-character alternatives of
`3[0-1]|[1-2]\d|0[1-9]|[1-9]| [1-9]` — note the space-padded alternative,
and that the second character of `[1-2]\d` may be any decimal digit. -/
def dayOk2 (c1 c2 : Char) : Option ℕ :=
  if c1 = '3' && asciiIn '0' '1' c2 then some (30 + ndV c2)
  else if (c1 = '1' || c1 = '2') && isNd c2 then some (10 * ndV c1 + ndV c2)
  else if c1 = '0' && asciiIn '1' '9' c2 then some (ndV c2)
  else if c1 = ' ' && asciiIn '1' '9' c2 then some (ndV c2)
  else none

/-- Field `%H`, two-character alternatives of `2[0-3]|[0-1]\d|\d`. -/
def hourOk2 (c1 c2 : Char) : Option ℕ :=
  if c1 = '2' && asciiIn '0' '3' c2 then some (20 + ndV c2)
  else if (c1 = '0' || c1 = '1') && isNd c2 then some (10 * ndV c1 + ndV c2)
  else none

/-- Bare `\d` one-character alternative of `%H`, `%M` and `%S`. -/
def ndOk1 (c : Char) : Option ℕ := ndVal? c

/-- Field `%M`, two-character alternative of `[0-5]\d|\d`. -/
def minuteOk2 (c1 c2 : Char) : Option ℕ :=
  if asciiIn '0' '5' c1 && isNd c2 then some (10 * ndV c1 + ndV c2) else none

/-- Field `%S`, two-character alternatives of `6[0-1]|[0-5]\d|\d` (the 60
and 61 leap seconds pass the regex and are rejected later by the `datetime`
constructor). -/
def secondOk2 (c1 c2 : Char) : Option ℕ :=
  if c1 = '6' && asciiIn '0' '1' c2 then some (60 + ndV c2)
  else if asciiIn '0' '5' c1 && isNd c2 then some (10 * ndV c1 + ndV c2)
  else none

/-- Drop one optional colon (the `:?` of the `%z` regex). -/
def skipColon : List Char → List Char
  | ':' :: rest => rest
  | cs => cs

/-- Directive `%z`, which must consume the rest of the string (`_strptime`
rejects unconverted trailing data).  CPython 3.11's regex is
`[+-]\d\d:?[0-5]\d(:?[0-5]\d(\.\d{1,6})?)?|(?-i:Z)` (the `Z`
case-sensitive).  The value extraction that follows the regex normalises
the colons on the original matched text: with a colon after the hours it
demands a colon before the seconds too (else
`ValueError: Inconsistent use of :`), and without one a seconds colon
poisons `int(z[5:7])` (`int(':…')` raises) — so when a seconds group is
present the two colons must be used consistently.  The result is the
absolute value of the offset in microseconds; the `timezone` constructor
then requires it to be strictly below 24 hours. -/
def parseOffsetMicros : List Char → Option ℕ
  | ['Z'] => some 0
  | c :: rest =>
    if c = '+' ∨ c = '-' then
      match take2Nd rest with
      | none => none
      | some (hh, r1) =>
        let colon1 : Bool := match r1 with | ':' :: _ => true | _ => false
        match take05d (skipColon r1) with
        | none => none
        | some (mm, r3) =>
          match r3 with
          | [] => some ((hh * 3600 + mm * 60) * 1000000)
          | _ =>
            let colon2 : Bool := match r3 with | ':' :: _ => true | _ => false
            if colon2 ≠ colon1 then none
            else
              match take05d (skipColon r3) with
              | none => none
              | some (ss, r5) =>
                match r5 with
                | [] => some ((hh * 3600 + mm * 60 + ss) * 1000000)
                | '.' :: r6 =>
                  let p := takeNdDigits r6
                  if 1 ≤ p.1.length ∧ p.1.length ≤ 6 ∧ p.2 = [] then
                    some ((hh * 3600 + mm * 60 + ss) * 1000000 +
                      ndDigitsVal p.1 * 10 ^ (6 - p.1.length))
                  else none
                | _ => none
    else none
  | [] => none

/-- Whether a calendar year is a leap year (`calendar.isleap`). -/
def isLeapYear (y : ℕ) : Bool :=
  (y % 4 == 0 && y % 100 != 0) || (y % 400 == 0)

/-- Days in a month, as enforced by the `datetime` constructor. -/
def daysInMonth (y m : ℕ) : ℕ :=
  if m = 2 then (if isLeapYear y then 29 else 28)
  else if m = 4 ∨ m = 6 ∨ m = 9 ∨ m = 11 then 30
  else 31

/-- Embedding of
`datetime.datetime.strptime(s, "%Y-%m-%dT%H:%M:%S.%f%z").year` (tools.py
line 94): `some year` on success, `none` when Python raises `ValueError`.
The field syntax follows CPython 3.11's `_strptime.TimeRE` patterns quoted
at the per-field definitions above, compiled with `re.IGNORECASE` (relevant
only to the literal `T` and to `Z`, which opts out), matched from the start
of the string with trailing data rejected.  The final guard models the
checks applied after the regex match: `MINYEAR <= year` and the day fitting
the month (the `datetime` constructor), no leap second
(`second must be in 0..59`), and an offset strictly below 24 hours (the
`timezone` constructor). -/
def strptimeYear (s : String) : Option ℤ := do
  let (year, cs1) ← take4Nd s.data
  let cs2 ← expectChar '-' cs1
  let (month, cs3) ← parseField2or1 monthOk2 monthOk1 (fun c => c == '-') cs2
  let cs4 ← expectChar '-' cs3
  let (day, cs5) ← parseField2or1 dayOk2 monthOk1
    (fun c => c == 'T' || c == 't') cs4
  let cs6 ← expectT cs5
  let (_hour, cs7) ← parseField2or1 hourOk2 ndOk1 (fun c => c == ':') cs6
  let cs8 ← expectChar ':' cs7
  let (_minute, cs9) ← parseField2or1 minuteOk2 ndOk1 (fun c => c == ':') cs8
  let cs10 ← expectChar ':' cs9
  let (second, cs11) ← parseField2or1 secondOk2 ndOk1 (fun c => c == '.') cs10
  let cs12 ← expectChar '.' cs11
  let pf := takeDigits cs12
  guard (1 ≤ pf.1.length ∧ pf.1.length ≤ 6)
  let offMicros ← parseOffsetMicros pf.2
  guard (1 ≤ year ∧ day ≤ daysInMonth year month ∧ second ≤ 59 ∧
    offMicros < 86400000000)
  pure (year : ℤ)

/-- Python-dict lookup on an association list (year ↦ payout), the model of
`res[year]` / `year in res`. -/
def dictGet? : List (ℤ × ℚ) → ℤ → Option ℚ
  | [], _ => none
  | p :: rest, k => if p.1 = k then some p.2 else dictGet? rest k

/-- Python-dict assignment `res[key] = v`: replace the value of an existing
key in place, else append the new binding. -/
def dictSet : List (ℤ × ℚ) → ℤ → ℚ → List (ℤ × ℚ)
  | [], k, v => [(k, v)]
  | p :: rest, k, v =>
    if p.1 = k then (k, v) :: rest else p :: dictSet rest k v

lemma dictGet?_dictSet (d : List (ℤ × ℚ)) (k Y : ℤ) (v : ℚ) :
    dictGet? (dictSet d k v) Y = if Y = k then some v else dictGet? d Y := by
  induction d with
  | nil =>
    by_cases h : Y = k
    · simp [dictSet, dictGet?, h]
    · simp [dictSet, dictGet?, h, Ne.symm h]
  | cons p rest ih =>
    by_cases h1 : p.1 = k
    · by_cases h2 : Y = k
      · simp [dictSet, dictGet?, h1, h2]
      · simp [dictSet, dictGet?, h1, h2, Ne.symm h2]
    · by_cases h2 : p.1 = Y
      · have hYk : ¬(Y = k) := fun he => h1 (h2.trans he)
        simp [dictSet, dictGet?, h1, h2, hYk]
      · simp [dictSet, dictGet?, h1, h2, ih]

/-- The payout triggered by one catalog row: the source builds the event
dict from the row's `mag` and `distance` columns (tools.py lines 93-100)
and applies `compute_payout_item`. -/
def rowPayout (payout_structure : List PayoutTier) (item : CatalogRow) : ℚ :=
  compute_payout_item
    { distance := item.distance, magnitude := item.mag } payout_structure

/-- The loop body state of `compute_payouts` (tools.py lines 90-108): one
recursive step per catalog row, threading the result dict; a `strptime`
failure (a Python `ValueError`) aborts the whole loop, embedded as
`Except.error` carrying the offending row. -/
def computePayoutsGo (payout_structure : List PayoutTier) :
    List CatalogRow → List (ℤ × ℚ) → Except CatalogRow (List (ℤ × ℚ))
  | [], res => .ok res
  | item :: rest, res =>
    match strptimeYear item.time with
    | none => .error item
    | some year =>
      let payout_value := rowPayout payout_structure item
      if 0 < payout_value then
        match dictGet? res year with
        | some prev =>
          computePayoutsGo payout_structure rest
            (dictSet res year (max prev payout_value))
        | none =>
          computePayoutsGo payout_structure rest (dictSet res year payout_value)
      else
        computePayoutsGo payout_structure rest res

/-- Embedding of `compute_payouts` (tools.py lines 69-108). -/
def compute_payouts (earthquake_data : List CatalogRow)
    (payout_structure : List PayoutTier) :
    Except CatalogRow (List (ℤ × ℚ)) :=
  computePayoutsGo payout_structure earthquake_data []

/-- One update step of the yearly dict at a fixed year, as an operation on
the optional current value: a new payout registers only if positive. -/
def accStep (acc : Option ℚ) (v : ℚ) : Option ℚ :=
  if 0 < v then
    match acc with
    | some p => some (max p v)
    | none => some v
  else acc

/-- Spec-side list of the matched payouts of the catalog rows whose parsed
year equals `Y`, in catalog order. -/
def yearPayouts (catalog : List CatalogRow) (payout_structure : List PayoutTier)
    (Y : ℤ) : List ℚ :=
  (catalog.filter (fun r => decide (strptimeYear r.time = some Y))).map
    (rowPayout payout_structure)

/-- Spec-side maximum matched payout of year `Y` (0 when `Y` has no rows). -/
def yearMaxPayout (catalog : List CatalogRow)
    (payout_structure : List PayoutTier) (Y : ℤ) : ℚ :=
  (yearPayouts catalog payout_structure Y).foldl max 0

/-- Loop invariant of `compute_payouts`: when every remaining row's time
parses, the loop succeeds and, per year, the final dict entry is the
`accStep`-fold of that year's matched payouts over the entry at loop entry. -/
lemma computePayoutsGo_ok (payout_structure : List PayoutTier) :
    ∀ (l : List CatalogRow) (res : List (ℤ × ℚ)),
      (∀ r ∈ l, (strptimeYear r.time).isSome) →
      ∃ m, computePayoutsGo payout_structure l res = .ok m ∧
        ∀ Y : ℤ, dictGet? m Y =
          (yearPayouts l payout_structure Y).foldl accStep (dictGet? res Y) := by
  intro l
  induction l with
  | nil =>
    intro res _
    exact ⟨res, rfl, fun Y => rfl⟩
  | cons item rest ih =>
    intro res h
    obtain ⟨yr, hyr⟩ :=
      Option.isSome_iff_exists.mp (h item (List.mem_cons_self item rest))
    have hrest : ∀ r ∈ rest, (strptimeYear r.time).isSome :=
      fun r hr => h r (List.mem_cons_of_mem item hr)
    have hyearcons : ∀ Y : ℤ,
        yearPayouts (item :: rest) payout_structure Y =
          if yr = Y then
            rowPayout payout_structure item :: yearPayouts rest payout_structure Y
          else yearPayouts rest payout_structure Y := by
      intro Y
      by_cases hY : yr = Y
      · simp [yearPayouts, List.filter_cons, hyr, hY]
      · simp [yearPayouts, List.filter_cons, hyr, hY]
    by_cases hv : 0 < rowPayout payout_structure item
    · cases hg : dictGet? res yr with
      | some prev =>
        obtain ⟨m, hm, hget⟩ :=
          ih (dictSet res yr (max prev (rowPayout payout_structure item))) hrest
        refine ⟨m, ?_, ?_⟩
        · simp only [computePayoutsGo, hyr, if_pos hv, hg]
          exact hm
        · intro Y
          rw [hget Y, dictGet?_dictSet, hyearcons Y]
          by_cases hY : yr = Y
          · subst hY
            simp [accStep, hv, hg]
          · simp [hY, Ne.symm hY]
      | none =>
        obtain ⟨m, hm, hget⟩ :=
          ih (dictSet res yr (rowPayout payout_structure item)) hrest
        refine ⟨m, ?_, ?_⟩
        · simp only [computePayoutsGo, hyr, if_pos hv, hg]
          exact hm
        · intro Y
          rw [hget Y, dictGet?_dictSet, hyearcons Y]
          by_cases hY : yr = Y
          · subst hY
            simp [accStep, hv, hg]
          · simp [hY, Ne.symm hY]
    · obtain ⟨m, hm, hget⟩ := ih res hrest
      refine ⟨m, ?_, ?_⟩
      · simp only [computePayoutsGo, hyr, if_neg hv]
        exact hm
      · intro Y
        rw [hget Y, hyearcons Y]
        by_cases hY : yr = Y
        · subst hY
          simp [accStep, hv]
        · simp [hY]

/-- One `accStep` applied to an optional value kept in the
`positive ↦ some` normal form. -/
lemma foldl_accStep_eq (vals : List ℚ) :
    ∀ a : ℚ, 0 ≤ a → (∀ v ∈ vals, 0 ≤ v) →
      vals.foldl accStep (if 0 < a then some a else none) =
        if 0 < vals.foldl max a then some (vals.foldl max a) else none := by
  induction vals with
  | nil => intro a _ _; rfl
  | cons v t ih =>
    intro a ha hv
    have hv0 : 0 ≤ v := hv v (List.mem_cons_self v t)
    have hvt : ∀ w ∈ t, 0 ≤ w := fun w hw => hv w (List.mem_cons_of_mem v hw)
    have hstep : accStep (if 0 < a then some a else none) v =
        if 0 < max a v then some (max a v) else none := by
      by_cases h1 : 0 < v
      · by_cases h2 : 0 < a
        · have hm : (0 : ℚ) < max a v := lt_max_of_lt_left h2
          simp [accStep, h1, h2, hm]
        · have ha0 : a = 0 := le_antisymm (not_lt.mp h2) ha
          subst ha0
          simp [accStep, h1, max_eq_right hv0]
      · have hv00 : v = 0 := le_antisymm (not_lt.mp h1) hv0
        subst hv00
        simp [accStep, max_eq_left ha]
    rw [List.foldl_cons, hstep, List.foldl_cons]
    exact ih (max a v) (le_trans ha (le_max_left a v)) hvt

/-- `accStep`-folding a list of nonnegative payouts from an empty entry
gives `some` of the `max`-fold exactly when that maximum is positive. -/
lemma foldl_accStep_none (vals : List ℚ) (hv : ∀ v ∈ vals, 0 ≤ v) :
    vals.foldl accStep none =
      if 0 < vals.foldl max 0 then some (vals.foldl max 0) else none := by
  have h := foldl_accStep_eq vals 0 le_rfl hv
  simpa using h

/-- C4: on a catalog whose rows all parse, `compute_payouts` succeeds; the
resulting mapping holds, for each year, the maximum matched payout of that
year when it is positive, has no entry at all when that maximum is 0, and
is empty for an empty catalog. -/
theorem compute_payouts_year_max (catalog : List CatalogRow)
    (payout_structure : List PayoutTier)
    (h : ∀ r ∈ catalog, (strptimeYear r.time).isSome) :
    ∃ m, compute_payouts catalog payout_structure = .ok m ∧
      (∀ Y : ℤ,
        dictGet? m Y =
          if 0 < yearMaxPayout catalog payout_structure Y then
            some (yearMaxPayout catalog payout_structure Y)
          else none) ∧
      (catalog = [] → m = []) := by
  obtain ⟨m, hm, hget⟩ := computePayoutsGo_ok payout_structure catalog [] h
  refine ⟨m, hm, ?_, ?_⟩
  · intro Y
    have hv : ∀ v ∈ yearPayouts catalog payout_structure Y, 0 ≤ v := by
      intro v hvv
      rcases List.mem_map.mp hvv with ⟨r, _, hr⟩
      exact hr ▸ compute_payout_item_nonneg _ _
    rw [hget Y]
    exact foldl_accStep_none _ hv
  · intro hc
    subst hc
    exact (Except.ok.inj hm).symm

/-- C4 witness: a one-row catalog (year 2022, magnitude 7, distance 10 km)
against the single tier (radius 100, magnitude 6, payout 20). -/
theorem compute_payouts_year_max_witness :
    (∀ r ∈ [(⟨"2022-01-01T00:00:00.000+00:00", 7, 10⟩ : CatalogRow)],
        (strptimeYear r.time).isSome) ∧
    (∃ m,
      compute_payouts [(⟨"2022-01-01T00:00:00.000+00:00", 7, 10⟩ : CatalogRow)]
          [⟨100, 6, 20⟩] = .ok m ∧
      (∀ Y : ℤ,
        dictGet? m Y =
          if 0 < yearMaxPayout
              [(⟨"2022-01-01T00:00:00.000+00:00", 7, 10⟩ : CatalogRow)]
              [⟨100, 6, 20⟩] Y then
            some (yearMaxPayout
              [(⟨"2022-01-01T00:00:00.000+00:00", 7, 10⟩ : CatalogRow)]
              [⟨100, 6, 20⟩] Y)
          else none) ∧
      ([(⟨"2022-01-01T00:00:00.000+00:00", 7, 10⟩ : CatalogRow)] =
          ([] : List CatalogRow) → m = [])) :=
  ⟨by decide,
    compute_payouts_year_max
      [(⟨"2022-01-01T00:00:00.000+00:00", 7, 10⟩ : CatalogRow)]
      [⟨100, 6, 20⟩] (by decide)⟩

/-- A malformed row aborts the `compute_payouts` loop with an error that
carries a malformed row of the remaining catalog. -/
lemma computePayoutsGo_err (payout_structure : List PayoutTier) :
    ∀ (l : List CatalogRow) (res : List (ℤ × ℚ)),
      (∃ r ∈ l, strptimeYear r.time = none) →
      ∃ bad, computePayoutsGo payout_structure l res = .error bad ∧
        bad ∈ l ∧ strptimeYear bad.time = none := by
  intro l
  induction l with
  | nil =>
    intro res h
    exact absurd h (by simp)
  | cons item rest ih =>
    intro res h
    cases hx : strptimeYear item.time with
    | none =>
      exact ⟨item, by simp [computePayoutsGo, hx],
        List.mem_cons_self item rest, hx⟩
    | some yr =>
      have hrest : ∃ r ∈ rest, strptimeYear r.time = none := by
        rcases h with ⟨b, hb, hbn⟩
        rcases List.mem_cons.mp hb with rfl | hbr
        · rw [hx] at hbn; cases hbn
        · exact ⟨b, hbr, hbn⟩
      by_cases hv : 0 < rowPayout payout_structure item
      · cases hg : dictGet? res yr with
        | some prev =>
          obtain ⟨bad, hbad, hmem, hbn⟩ :=
            ih (dictSet res yr (max prev (rowPayout payout_structure item)))
              hrest
          refine ⟨bad, ?_, List.mem_cons_of_mem item hmem, hbn⟩
          simp only [computePayoutsGo, hx, if_pos hv, hg]
          exact hbad
        | none =>
          obtain ⟨bad, hbad, hmem, hbn⟩ :=
            ih (dictSet res yr (rowPayout payout_structure item)) hrest
          refine ⟨bad, ?_, List.mem_cons_of_mem item hmem, hbn⟩
          simp only [computePayoutsGo, hx, if_pos hv, hg]
          exact hbad
      · obtain ⟨bad, hbad, hmem, hbn⟩ := ih res hrest
        refine ⟨bad, ?_, List.mem_cons_of_mem item hmem, hbn⟩
        simp only [computePayoutsGo, hx, if_neg hv]
        exact hbad

/-- C6: a catalog containing a row whose time does not parse makes
`compute_payouts` fail with an error identifying a malformed row of the
catalog; it never skips such a row and returns a mapping. -/
theorem compute_payouts_malformed_time_errors (catalog : List CatalogRow)
    (payout_structure : List PayoutTier)
    (h : ∃ r ∈ catalog, strptimeYear r.time = none) :
    ∃ bad, compute_payouts catalog payout_structure = .error bad ∧
      bad ∈ catalog ∧ strptimeYear bad.time = none :=
  computePayoutsGo_err payout_structure catalog [] h

/-- C6 witness: a catalog whose second row's time string is not a
fixed-offset ISO-8601 timestamp. -/
theorem compute_payouts_malformed_time_errors_witness :
    (∃ r ∈ [(⟨"2022-01-01T00:00:00.000+00:00", 7, 10⟩ : CatalogRow),
        (⟨"not-a-date", 5, 10⟩ : CatalogRow)],
      strptimeYear r.time = none) ∧
    (∃ bad,
      compute_payouts
          [(⟨"2022-01-01T00:00:00.000+00:00", 7, 10⟩ : CatalogRow),
           (⟨"not-a-date", 5, 10⟩ : CatalogRow)]
          [⟨100, 6, 20⟩] = .error bad ∧
        bad ∈ [(⟨"2022-01-01T00:00:00.000+00:00", 7, 10⟩ : CatalogRow),
          (⟨"not-a-date", 5, 10⟩ : CatalogRow)] ∧
        strptimeYear bad.time = none) :=
  ⟨by decide,
    compute_payouts_malformed_time_errors
      [(⟨"2022-01-01T00:00:00.000+00:00", 7, 10⟩ : CatalogRow),
       (⟨"not-a-date", 5, 10⟩ : CatalogRow)]
      [⟨100, 6, 20⟩] (by decide)⟩

/-- The constant `EARTH_RADIUS = 6378` of tools.py, in km. -/
noncomputable def EARTH_RADIUS : ℝ := 6378

/-- `math.radians`: degrees to radians. -/
noncomputable def radians (x : ℝ) : ℝ := x * Real.pi / 180

/-- The loop of `get_haversine_distance` (tools.py lines 55-65): one cons
per pair produced by `zip(blist_lat, blist_lon)` (the zip stops at the
shorter list), with the reference point already converted to radians. -/
noncomputable def haversineLoop : List ℝ → List ℝ → ℝ → ℝ → List ℝ
  | b_lat :: ls, b_lon :: os, a_phi, a_lambda =>
    2 * EARTH_RADIUS * Real.arcsin (Real.sqrt
        (Real.sin ((radians b_lat - a_phi) / 2) ^ 2 +
          Real.cos a_phi * Real.cos (radians b_lat) *
            Real.sin ((radians b_lon - a_lambda) / 2) ^ 2)) ::
      haversineLoop ls os a_phi a_lambda
  | _, _, _, _ => []

/-- Embedding of `get_haversine_distance` (tools.py lines 27-67). -/
noncomputable def get_haversine_distance (blist_lat blist_lon : List ℝ)
    (a_lat a_lon : ℝ) : List ℝ :=
  haversineLoop blist_lat blist_lon (radians a_lat) (radians a_lon)

/-- Modelled from the spec's words (section 4.1): the great-circle distance
`2·R·asin(√(sin²(Δφ/2) + cos φ₁·cos φ₂·sin²(Δλ/2)))` on a sphere of radius
6378 km, the coordinates being converted from decimal degrees to radians
first. -/
noncomputable def haversineSpec (lat1 lon1 lat2 lon2 : ℝ) : ℝ :=
  2 * 6378 * Real.arcsin (Real.sqrt
    (Real.sin ((radians lat2 - radians lat1) / 2) ^ 2 +
      Real.cos (radians lat1) * Real.cos (radians lat2) *
        Real.sin ((radians lon2 - radians lon1) / 2) ^ 2))

lemma haversineLoop_zipWith (ls : List ℝ) : ∀ (os : List ℝ) (ap al : ℝ),
    haversineLoop ls os ap al =
      List.zipWith (fun b_lat b_lon =>
        2 * EARTH_RADIUS * Real.arcsin (Real.sqrt
          (Real.sin ((radians b_lat - ap) / 2) ^ 2 +
            Real.cos ap * Real.cos (radians b_lat) *
              Real.sin ((radians b_lon - al) / 2) ^ 2))) ls os := by
  induction ls with
  | nil => intro os ap al; cases os <;> rfl
  | cons b ls ih =>
    intro os ap al
    cases os with
    | nil => rfl
    | cons c os => simp only [haversineLoop, List.zipWith_cons_cons, ih]

/-- C5: for equal-length target lists, `get_haversine_distance` returns the
pointwise `haversineSpec` distances, in order, with the same length. -/
theorem get_haversine_distance_spec (blist_lat blist_lon : List ℝ)
    (a_lat a_lon : ℝ) (h : blist_lat.length = blist_lon.length) :
    get_haversine_distance blist_lat blist_lon a_lat a_lon =
      List.zipWith (fun b_lat b_lon => haversineSpec a_lat a_lon b_lat b_lon)
        blist_lat blist_lon ∧
    (get_haversine_distance blist_lat blist_lon a_lat a_lon).length =
      blist_lat.length := by
  have he : get_haversine_distance blist_lat blist_lon a_lat a_lon =
      List.zipWith (fun b_lat b_lon => haversineSpec a_lat a_lon b_lat b_lon)
        blist_lat blist_lon := by
    rw [get_haversine_distance, haversineLoop_zipWith]
    simp only [haversineSpec, EARTH_RADIUS]
  refine ⟨he, ?_⟩
  rw [he, List.length_zipWith, h, min_self]

/-- C5 witness: the one-point instance at latitude 3, longitude 4 from the
reference point (1, 2). -/
theorem get_haversine_distance_spec_witness :
    ([(3 : ℝ)].length = [(4 : ℝ)].length) ∧
    (get_haversine_distance [(3 : ℝ)] [(4 : ℝ)] 1 2 =
      List.zipWith (fun b_lat b_lon => haversineSpec 1 2 b_lat b_lon)
        [(3 : ℝ)] [(4 : ℝ)] ∧
    (get_haversine_distance [(3 : ℝ)] [(4 : ℝ)] 1 2).length =
      [(3 : ℝ)].length) :=
  ⟨rfl, get_haversine_distance_spec [(3 : ℝ)] [(4 : ℝ)] 1 2 rfl⟩

/-- C8: the haversine distance from any point to itself is exactly 0 in the
real-number model (hence within any floating tolerance); in particular
`get_haversine_distance([1], [2], 1, 2) = [0]`. -/
theorem get_haversine_distance_self_zero :
    (∀ lat lon : ℝ, get_haversine_distance [lat] [lon] lat lon = [0]) ∧
    get_haversine_distance [(1 : ℝ)] [(2 : ℝ)] 1 2 = [0] := by
  have key : ∀ lat lon : ℝ, get_haversine_distance [lat] [lon] lat lon = [0] := by
    intro lat lon
    simp [get_haversine_distance, haversineLoop]
  exact ⟨key, key 1 2⟩

lemma haversineLoop_length (ls : List ℝ) : ∀ (os : List ℝ) (ap al : ℝ),
    (haversineLoop ls os ap al).length = min ls.length os.length := by
  induction ls with
  | nil => intro os ap al; cases os <;> simp [haversineLoop]
  | cons b ls ih =>
    intro os ap al
    cases os with
    | nil => simp [haversineLoop]
    | cons c os =>
      simp only [haversineLoop, List.length_cons, ih]
      omega

lemma haversineLoop_take (ls : List ℝ) : ∀ (os : List ℝ) (ap al : ℝ),
    haversineLoop (ls.take (min ls.length os.length))
        (os.take (min ls.length os.length)) ap al =
      haversineLoop ls os ap al := by
  induction ls with
  | nil => intro os ap al; cases os <;> rfl
  | cons b ls ih =>
    intro os ap al
    cases os with
    | nil => rfl
    | cons c os =>
      simp only [List.length_cons, Nat.succ_min_succ, List.take_succ_cons,
        haversineLoop]
      rw [ih os ap al]

/-- C9: on target lists of unequal lengths, `get_haversine_distance` does
not fail: it returns a list of the shorter length, computed as if the
longer list were truncated to that length. -/
theorem get_haversine_distance_mismatched_lengths (blist_lat blist_lon : List ℝ)
    (a_lat a_lon : ℝ) (_h : blist_lat.length ≠ blist_lon.length) :
    (get_haversine_distance blist_lat blist_lon a_lat a_lon).length =
      min blist_lat.length blist_lon.length ∧
    get_haversine_distance blist_lat blist_lon a_lat a_lon =
      get_haversine_distance
        (blist_lat.take (min blist_lat.length blist_lon.length))
        (blist_lon.take (min blist_lat.length blist_lon.length))
        a_lat a_lon := by
  constructor
  · exact haversineLoop_length blist_lat blist_lon _ _
  · exact (haversineLoop_take blist_lat blist_lon _ _).symm

/-- C9 witness: a two-element latitude list against a one-element longitude
list yields one distance, that of the truncated pair. -/
theorem get_haversine_distance_mismatched_lengths_witness :
    ([(3 : ℝ), 5].length ≠ [(4 : ℝ)].length) ∧
    ((get_haversine_distance [(3 : ℝ), 5] [(4 : ℝ)] 1 2).length =
      min [(3 : ℝ), 5].length [(4 : ℝ)].length ∧
    get_haversine_distance [(3 : ℝ), 5] [(4 : ℝ)] 1 2 =
      get_haversine_distance
        ([(3 : ℝ), 5].take (min [(3 : ℝ), 5].length [(4 : ℝ)].length))
        ([(4 : ℝ)].take (min [(3 : ℝ), 5].length [(4 : ℝ)].length)) 1 2) :=
  ⟨by decide,
    get_haversine_distance_mismatched_lengths [(3 : ℝ), 5] [(4 : ℝ)] 1 2
      (by decide)⟩
